import Mathlib

/-!
Shallow embedding of `src/app.py`, a single-file pandas/streamlit dashboard.

Modelling conventions:
- a CSV cell that pandas would load as `NaN` is modelled as `none`;
- numeric measure columns are `Option ℚ` (floats with possible `NaN`),
  categorical columns are `Option String`;
- a pandas `DataFrame` column operation becomes a `List` operation keeping
  the original row order;
- `pd.Period` with monthly frequency is stored by pandas as an integer
  ordinal, so a month is embedded as `Int`, ordered chronologically;
- the mutable module-level dataframe `df` (the source assigns a new column
  to it on line 65) is embedded as explicit state passing of a `DataFrame`
  value through the tab-rendering functions.
-/

/-- A calendar date as produced by a successful `pd.to_datetime` parse. -/
structure Date where
  year : Int
  month : Nat
  day : Nat
deriving DecidableEq

/-- A monthly period (`Series.dt.to_period("M")`): pandas represents a
period as an integer ordinal ordered chronologically. -/
abbrev Month := Int

/-- Conversion of a date to its monthly period: the day component is
discarded, year and month determine the ordinal. -/
def Date.toPeriodM (d : Date) : Month :=
  12 * d.year + (d.month : Int) - 1

/-- One row of the loaded CSV, restricted to the columns the dashboard
reads (lines 22-25, 32-35, 43-57, 65-66, 80, 91-92, 103-106 of
`src/app.py`). Identifier columns are integers; categorical columns and
numeric measures may hold `NaN` in the CSV, hence `Option`. The raw
`order date (DateOrders)` string is kept unparsed; line 65 parses it. -/
structure Record where
  orderId : Int
  customerId : Int
  orderStatus : Option String
  shippingMode : Option String
  customerSegment : Option String
  customerCountry : Option String
  customerCity : Option String
  categoryName : Option String
  productName : Option String
  sales : Option ℚ
  orderProfitPerOrder : Option ℚ
  salesPerCustomer : Option ℚ
  daysShippingReal : Option ℚ
  daysShipmentScheduled : Option ℚ
  lateDeliveryRisk : Option ℚ
  orderDateRaw : String
deriving DecidableEq

/-- pandas `Series.sum()` with its default `skipna=True`: null entries are
ignored; the sum of an empty or all-null series is `0`. -/
def optSum (xs : List (Option ℚ)) : ℚ :=
  (xs.filterMap id).sum

/-- pandas `Series.mean()` with its default `skipna=True`: null entries are
ignored; the mean of an empty or all-null series is `NaN`, embedded as
`none`. -/
def optMean (xs : List (Option ℚ)) : Option ℚ :=
  let v := xs.filterMap id
  if v.length = 0 then none else some (v.sum / v.length)

/-- pandas `Series.nunique()`: the number of distinct non-null values.  The
identifier columns it is applied to are integer-valued, so every value is
present. -/
def nunique (xs : List Int) : Nat :=
  xs.dedup.length

/-- The four scalar KPI cards of the Overview tab (lines 22-25). -/
structure MetricSnapshot where
  totalOrders : Nat
  uniqueCustomers : Nat
  totalSales : ℚ
  avgProfitPerOrder : Option ℚ
deriving DecidableEq

/-- Lines 22-25: `df['Order Id'].nunique()`, `df['Customer Id'].nunique()`,
`df['Sales'].sum()` and `df['Order Profit Per Order'].mean()`. -/
def computeSnapshot (d : List Record) : MetricSnapshot where
  totalOrders := nunique (d.map Record.orderId)
  uniqueCustomers := nunique (d.map Record.customerId)
  totalSales := optSum (d.map Record.sales)
  avgProfitPerOrder := optMean (d.map Record.orderProfitPerOrder)

/-- pandas scalar equality as evaluated inside `df[col] == v` (line 44): a
null (`NaN`) on either side compares unequal — in particular
`NaN == NaN` is `False` — and otherwise the comparison is exact string
equality with no coercion. -/
def pdEq (a b : Option String) : Bool :=
  match a, b with
  | some x, some y => x = y
  | _, _ => false

/-- Line 44, `df[df["Shipping Mode"] == shipping_mode]` generalised over the
column accessor: keep exactly the rows whose column value compares equal to
the selected value, in their original order. -/
def filterByValue (get : Record → Option String) (v : Option String) (rows : List Record) :
    List Record :=
  rows.filter (fun r => pdEq (get r) v)

/-- Line 43, `df["Shipping Mode"].unique()`: the distinct values of the
column, nulls included when present. -/
def uniqueShippingModes (rows : List Record) : List (Option String) :=
  (rows.map Record.shippingMode).dedup

/-- The non-null key values occurring in the rows, in row order.
pandas `groupby` with its default `dropna=True` ignores rows whose key is
null. -/
def presentKeys (key : α → Option κ) (rows : List α) : List κ :=
  rows.filterMap key

/-- The distinct group keys of a pandas `groupby`, in ascending order (the
default `sort=True`). -/
def groupKeys [LinearOrder κ] (key : α → Option κ) (rows : List α) : List κ :=
  ((presentKeys key rows).dedup).mergeSort (fun a b => decide (a ≤ b))

/-- pandas `df.groupby(key)` restricted to what `.agg` observes: for each
distinct non-null key, in ascending key order, the sub-list of rows carrying
that key, in original row order.  Rows whose key is null belong to no
group. -/
def groupBy [LinearOrder κ] (key : α → Option κ) (rows : List α) :
    List (κ × List α) :=
  (groupKeys key rows).map (fun k => (k, rows.filter (fun r => decide (key r = some k))))

/-- pandas `df.groupby(key).agg(red)` (lines 66, 80, 103, 106): reduce each
group of `groupBy` with the given reduction. -/
def groupReduce [LinearOrder κ] (key : α → Option κ) (red : List α → β) (rows : List α) :
    List (κ × β) :=
  (groupBy key rows).map (fun g => (g.1, red g.2))

/-- pandas `sort_values(field, ascending=False)` (line 103): pandas computes
an ascending argsort of the column and reverses the resulting indexer
(`nargsort` with `ascending=False`); the default `kind='quicksort'` leaves
the relative order of equal values unspecified.  The embedding instantiates
the unspecified ascending argsort with a stable ascending sort; its
reversal then lists equal values in reversed original order — in
particular, the code gives no original-order guarantee for ties. -/
def sortDesc (f : α → ℚ) (rows : List α) : List α :=
  (rows.mergeSort (fun a b => decide (f a ≤ f b))).reverse

/-- pandas `sort_values(field, ascending=False).head(n)` (line 103): the
first `n` rows in descending order of `f`. -/
def topN (f : α → ℚ) (n : Nat) (rows : List α) : List α :=
  (sortDesc f rows).take n

/-- Line 103: `df.groupby("Product Name").agg({'Sales':'sum'})`
followed by `sort_values("Sales", ascending=False).head(10)`. -/
def top_products (d : List Record) : List (String × ℚ) :=
  topN Prod.snd 10
    (groupReduce Record.productName (fun g => optSum (g.map Record.sales)) d)

/-- Line 106: `df.groupby("Category Name").agg({'Sales':'sum',
'Order Profit Per Order':'sum'})`. -/
def category_perf (d : List Record) : List (String × ℚ × ℚ) :=
  groupReduce Record.categoryName
    (fun g => (optSum (g.map Record.sales), optSum (g.map Record.orderProfitPerOrder))) d

/-- Line 80 key: the pair of the two groupby columns `Customer Country`,
`Customer City`; the row is keyed only when both are non-null (pandas drops
a row from a multi-key groupby when any key component is null), and pandas
orders multi-keys lexicographically. -/
def geoKey (r : Record) : Option (Lex (String × String)) :=
  match r.customerCountry, r.customerCity with
  | some country, some city => some (toLex (country, city))
  | _, _ => none

/-- Line 80: `df.groupby(['Customer Country', 'Customer City']).agg(
{'Sales':'sum', 'Order Profit Per Order':'sum'})`. -/
def geo_df (d : List Record) : List (Lex (String × String) × ℚ × ℚ) :=
  groupReduce geoKey
    (fun g => (optSum (g.map Record.sales), optSum (g.map Record.orderProfitPerOrder))) d

/-- Line 65, `pd.to_datetime(s, errors='coerce')` applied to one cell: the
date parser is run and a parse failure is coerced to null (`NaT`) instead
of being raised; the parser itself is a parameter of the embedding. -/
def toDatetimeCoerce (parse : String → Except String Date) (s : String) : Option Date :=
  (parse s).toOption

/-- Line 65, `df['order_date'] = pd.to_datetime(df['order date (DateOrders)'],
errors='coerce')` viewed row-wise: every row is kept and paired with its
parsed (possibly null) order date. -/
def withOrderDate (parse : String → Except String Date) (d : List Record) :
    List (Record × Option Date) :=
  d.map (fun r => (r, toDatetimeCoerce parse r.orderDateRaw))

/-- Line 66 grouping: `df.groupby(df['order_date'].dt.to_period("M"))`.
A null `order_date` (failed parse) yields a null key, so the row joins no
month bucket. -/
def monthlyGroups (parse : String → Except String Date) (d : List Record) :
    List (Month × List (Record × Option Date)) :=
  groupBy (fun p => p.2.map Date.toPeriodM) (withOrderDate parse d)

/-- Line 66: `df.groupby(df['order_date'].dt.to_period("M")).agg(
{'Sales':'sum', 'Order Profit Per Order':'sum'})`. -/
def monthlyAggregate (parse : String → Except String Date) (d : List Record) :
    List (Month × ℚ × ℚ) :=
  groupReduce (fun p => p.2.map Date.toPeriodM)
    (fun g => (optSum (g.map (fun p => p.1.sales)),
               optSum (g.map (fun p => p.1.orderProfitPerOrder))))
    (withOrderDate parse d)

/-- The in-memory session dataframe: the loaded rows together with the
`order_date` column that line 65 assigns onto the module-level `df`
(absent until the Sales & Profit tab has run). -/
structure DataFrame where
  rows : List Record
  orderDateCol : Option (List (Option Date))
deriving DecidableEq

/-- Line 6: the freshly loaded CSV has no `order_date` column. -/
def loadDataFrame (rows : List Record) : DataFrame :=
  ⟨rows, none⟩

/-- Lines 43-58, the Shipping & Delivery tab: the selected shipping mode
filters the rows (line 44) and three charts are drawn from the result.  The
tab leaves the session dataframe unchanged and displays no warning or
message element, so the list of warning messages it emits is empty. -/
def shippingTab (df : DataFrame) (mode : Option String) :
    DataFrame × List Record × List String :=
  (df, filterByValue Record.shippingMode mode df.rows, [])

/-- Lines 65-67, the Sales & Profit tab: line 65 assigns the parsed
`order_date` column onto the session dataframe (a schema change observable
after the tab runs), then lines 66-67 compute the monthly aggregation fed
to the two line charts. -/
def salesTab (parse : String → Except String Date) (df : DataFrame) :
    DataFrame × List (Month × ℚ × ℚ) :=
  ({ df with
      orderDateCol := some (df.rows.map (fun r => toDatetimeCoerce parse r.orderDateRaw)) },
   monthlyAggregate parse df.rows)

/-- A record with every nullable column null, used as concrete test data. -/
def baseRecord : Record where
  orderId := 1
  customerId := 1
  orderStatus := none
  shippingMode := none
  customerSegment := none
  customerCountry := none
  customerCity := none
  categoryName := none
  productName := none
  sales := none
  orderProfitPerOrder := none
  salesPerCustomer := none
  daysShippingReal := none
  daysShipmentScheduled := none
  lateDeliveryRisk := none
  orderDateRaw := "bad-date"

/-- A fully populated concrete record. -/
def exRecordA : Record :=
  { baseRecord with
      shippingMode := some "Standard Class"
      productName := some "Rip Deck"
      sales := some 100 }

/-- A concrete record carrying a product key but a null sales measure. -/
def exRecNullSales : Record :=
  { baseRecord with productName := some "P" }

/-- A date parser that fails on every input, used as concrete test data. -/
def exParseFail : String → Except String Date :=
  fun _ => Except.error "unparsable"

/-- A concrete keyed table for exercising topN. -/
def exPairs : List (String × ℚ) :=
  [("a", 5), ("b", 9), ("c", 9)]

/-- A concrete two-row table whose sort-field values are tied. -/
def exTies : List (String × ℚ) :=
  [("b", 9), ("c", 9)]

/-! Helper lemmas about the embedded operations. -/

theorem optSum_eq_sum_getD (xs : List (Option ℚ)) :
    optSum xs = (xs.map (fun x => x.getD 0)).sum := by
  induction xs with
  | nil => rfl
  | cons x xs ih =>
    cases x with
    | none => simpa [optSum, List.filterMap_cons] using ih
    | some q => simpa [optSum, List.filterMap_cons] using congrArg (q + ·) ih

theorem optSum_eq_zero_of_all_none (xs : List (Option ℚ)) (h : ∀ x ∈ xs, x = none) :
    optSum xs = 0 := by
  have hnil : xs.filterMap id = [] := by
    refine List.filterMap_eq_nil_iff.mpr ?_
    intro a ha
    simpa using h a ha
  simp [optSum, hnil]

theorem count_filter_eq [DecidableEq α] (p : α → Bool) (a : α) (l : List α) :
    (l.filter p).count a = if p a then l.count a else 0 := by
  by_cases h : p a = true
  · simp [List.count_filter h, h]
  · rw [if_neg h]
    refine List.count_eq_zero.mpr ?_
    intro hmem
    exact h (List.mem_filter.mp hmem).2

theorem groupKeys_nodup [LinearOrder κ] (key : α → Option κ) (rows : List α) :
    (groupKeys key rows).Nodup :=
  (List.mergeSort_perm ((presentKeys key rows).dedup) _).symm.nodup
    (List.nodup_dedup _)

theorem mem_groupKeys [LinearOrder κ] (key : α → Option κ) (rows : List α) (k : κ) :
    k ∈ groupKeys key rows ↔ ∃ r ∈ rows, key r = some k := by
  rw [groupKeys, (List.mergeSort_perm _ _).mem_iff, List.mem_dedup, presentKeys,
    List.mem_filterMap]

theorem groupKeys_sorted [LinearOrder κ] (key : α → Option κ) (rows : List α) :
    List.Sorted (· ≤ ·) (groupKeys key rows) := by
  have h := @List.sorted_mergeSort κ (fun a b : κ => decide (a ≤ b))
    (fun a b c hab hbc => by
      simp only [decide_eq_true_eq] at *
      exact le_trans hab hbc)
    (fun a b => by
      simp only [Bool.or_eq_true, decide_eq_true_eq]
      exact le_total a b)
    ((presentKeys key rows).dedup)
  exact h.imp (fun hab => of_decide_eq_true hab)

theorem groupKeys_sorted_lt [LinearOrder κ] (key : α → Option κ) (rows : List α) :
    List.Sorted (· < ·) (groupKeys key rows) :=
  (groupKeys_sorted key rows).lt_of_le (groupKeys_nodup key rows)

theorem groupReduce_map_fst [LinearOrder κ] (key : α → Option κ) (red : List α → β)
    (rows : List α) :
    (groupReduce key red rows).map Prod.fst = groupKeys key rows := by
  simp [groupReduce, groupBy, List.map_map, Function.comp_def]

theorem groupBy_map_fst [LinearOrder κ] (key : α → Option κ) (rows : List α) :
    (groupBy key rows).map Prod.fst = groupKeys key rows := by
  simp [groupBy, List.map_map, Function.comp_def]

theorem count_flatten_filter_keyed [DecidableEq α] [DecidableEq κ]
    (key : α → Option κ) (rows : List α) (a : α) (ks : List κ) (hnd : ks.Nodup) :
    ((ks.map (fun k => rows.filter (fun r => decide (key r = some k)))).flatten).count a
      = (rows.filter (fun r => (key r).any (fun k => decide (k ∈ ks)))).count a := by
  induction ks with
  | nil =>
    rw [List.map_nil, List.flatten_nil, List.count_nil]
    have hf : rows.filter (fun r => (key r).any (fun k => decide (k ∈ ([] : List κ)))) = [] :=
      List.filter_eq_nil_iff.mpr (fun r _ => by cases key r <;> simp)
    rw [hf, List.count_nil]
  | cons k ks ih =>
    have hk : k ∉ ks := (List.nodup_cons.mp hnd).1
    have ihnd := (List.nodup_cons.mp hnd).2
    rw [List.map_cons, List.flatten_cons, List.count_append, ih ihnd,
      count_filter_eq, count_filter_eq, count_filter_eq]
    cases hka : key a with
    | none => simp
    | some k₀ =>
      by_cases hkk : k₀ = k
      · subst hkk
        have : ¬ k₀ ∈ ks := hk
        simp [this]
      · by_cases hmem : k₀ ∈ ks
        · simp [hkk, hmem, Ne.symm hkk]
        · simp [hkk, hmem, Ne.symm hkk]

theorem groupBy_partition_perm [LinearOrder κ] [DecidableEq α]
    (key : α → Option κ) (rows : List α) :
    (((groupBy key rows).map Prod.snd).flatten).Perm
      (rows.filter (fun r => (key r).isSome)) := by
  have hmap : (groupBy key rows).map Prod.snd
      = (groupKeys key rows).map (fun k => rows.filter (fun r => decide (key r = some k))) := by
    simp [groupBy, List.map_map, Function.comp_def]
  rw [hmap]
  refine List.perm_iff_count.mpr (fun a => ?_)
  rw [count_flatten_filter_keyed key rows a (groupKeys key rows) (groupKeys_nodup key rows)]
  have hcongr : rows.filter (fun r => (key r).any (fun k => decide (k ∈ groupKeys key rows)))
      = rows.filter (fun r => (key r).isSome) := by
    refine List.filter_congr (fun r hr => ?_)
    cases hkr : key r with
    | none => simp
    | some k₀ =>
      have : k₀ ∈ groupKeys key rows :=
        (mem_groupKeys key rows k₀).mpr ⟨r, hr, hkr⟩
      simp [this]
  rw [hcongr]

theorem ascLe_trans (f : α → ℚ) : ∀ a b c : α,
    decide (f a ≤ f b) = true → decide (f b ≤ f c) = true →
    decide (f a ≤ f c) = true := by
  intro a b c hab hbc
  simp only [decide_eq_true_eq] at *
  exact le_trans hab hbc

theorem ascLe_total (f : α → ℚ) : ∀ a b : α,
    (decide (f a ≤ f b) || decide (f b ≤ f a)) = true := by
  intro a b
  simp only [Bool.or_eq_true, decide_eq_true_eq]
  exact le_total (f a) (f b)

theorem sortAsc_pairwise (f : α → ℚ) (rows : List α) :
    (rows.mergeSort (fun a b => decide (f a ≤ f b))).Pairwise
      (fun a b => f a ≤ f b) :=
  (List.sorted_mergeSort (ascLe_trans f) (ascLe_total f) rows).imp
    (fun hab => of_decide_eq_true hab)

theorem sortDesc_pairwise (f : α → ℚ) (rows : List α) :
    (sortDesc f rows).Pairwise (fun a b => f b ≤ f a) := by
  rw [sortDesc]
  exact List.pairwise_reverse.mpr (sortAsc_pairwise f rows)

theorem sortDesc_perm (f : α → ℚ) (rows : List α) :
    (sortDesc f rows).Perm rows := by
  rw [sortDesc]
  exact (List.reverse_perm _).trans (List.mergeSort_perm rows _)

theorem desc_map_eq_of_perm (f : α → ℚ) (l₁ l₂ : List α) (hp : l₁.Perm l₂)
    (h₁ : l₁.Pairwise (fun a b => f b ≤ f a))
    (h₂ : l₂.Pairwise (fun a b => f b ≤ f a)) :
    l₁.map f = l₂.map f := by
  have hs₁ : List.Sorted (fun x y : ℚ => y ≤ x) (l₁.map f) :=
    List.pairwise_map.mpr h₁
  have hs₂ : List.Sorted (fun x y : ℚ => y ≤ x) (l₂.map f) :=
    List.pairwise_map.mpr h₂
  haveI : IsAntisymm ℚ (fun x y : ℚ => y ≤ x) :=
    ⟨fun a b hab hba => le_antisymm hba hab⟩
  exact List.eq_of_perm_of_sorted (hp.map f) hs₁ hs₂

/-! Claim theorems. -/

/-- Claim C6: filterByValue is idempotent — filtering a second time with the
same field accessor and value returns the first filter's result unchanged;
matching is exact equality with no coercion. -/
theorem spec_C6_filterByValue_idem (get : Record → Option String) (v : Option String)
    (rows : List Record) :
    filterByValue get v (filterByValue get v rows) = filterByValue get v rows := by
  simp [filterByValue, List.filter_filter]

/-- Claim C1 (amended): groupReduce produces exactly one result row per
distinct combination of key values present in the input, but rows whose key
is absent are dropped by the default pandas groupby, not bucketed; hence
the rows across all groups partition exactly the sub-dataset of rows whose
key fields are all present (none of those omitted, none duplicated). -/
theorem spec_C1_groupReduce_partition [LinearOrder κ] [DecidableEq α]
    (key : α → Option κ) (red : List α → β) (rows : List α) :
    ((groupReduce key red rows).map Prod.fst).Nodup
    ∧ (∀ k, k ∈ (groupReduce key red rows).map Prod.fst ↔ ∃ r ∈ rows, key r = some k)
    ∧ (((groupBy key rows).map Prod.snd).flatten).Perm
        (rows.filter (fun r => (key r).isSome)) := by
  rw [groupReduce_map_fst]
  exact ⟨groupKeys_nodup key rows, fun k => mem_groupKeys key rows k,
    groupBy_partition_perm key rows⟩

/-- Claim C1 counterexample: a one-row dataset whose key field (here the
product name) is null yields an empty aggregation — the row lands in no
group at all, so there is no explicit missing bucket and the groups do not
partition the dataset. -/
theorem spec_C1_counterexample :
    groupReduce Record.productName (fun g => optSum (g.map Record.sales)) [baseRecord] = []
    ∧ ([baseRecord] : List Record) ≠ [] := by
  refine ⟨?_, by simp⟩
  simp [groupReduce, groupBy, groupKeys, presentKeys, baseRecord, List.mergeSort_nil]

/-- Claim C2: the totalSales scalar of the metric snapshot equals the sum of
the Sales field over all records of the dataset (an absent value
contributing nothing), in exact rational arithmetic. -/
theorem spec_C2_totalSales (d : List Record) :
    (computeSnapshot d).totalSales = (d.map (fun r => r.sales.getD 0)).sum := by
  have h : (computeSnapshot d).totalSales = optSum (d.map Record.sales) := rfl
  rw [h, optSum_eq_sum_getD, List.map_map]
  rfl

/-- Claim C3 (amended): topN returns at most n rows, sorted descending by
the sort field, drawn from a permutation of the input (no row invented or
duplicated); reapplying topN with the same or a larger bound returns the
same rows — a permutation of the first result with the identical sorted
field-value sequence — but not necessarily the same row sequence, and tie
order is not the original order (see the counterexample). -/
theorem spec_C3_topN (f : α → ℚ) (n : Nat) (rows : List α) :
    (topN f n rows).length ≤ n
    ∧ (topN f n rows).Pairwise (fun a b => f b ≤ f a)
    ∧ (topN f n rows).Sublist (sortDesc f rows)
    ∧ (sortDesc f rows).Perm rows
    ∧ ∀ m, n ≤ m →
        (topN f m (topN f n rows)).Perm (topN f n rows)
        ∧ (topN f m (topN f n rows)).map f = (topN f n rows).map f := by
  have hlen : (topN f n rows).length ≤ n := by
    rw [topN, List.length_take]
    exact inf_le_left
  have hpair : (topN f n rows).Pairwise (fun a b => f b ≤ f a) :=
    (sortDesc_pairwise f rows).sublist (List.take_sublist n _)
  refine ⟨hlen, hpair, List.take_sublist n _, sortDesc_perm f rows, ?_⟩
  intro m hm
  have hall : topN f m (topN f n rows) = sortDesc f (topN f n rows) := by
    have hl : (sortDesc f (topN f n rows)).length ≤ m :=
      le_trans (le_trans (le_of_eq (sortDesc_perm f _).length_eq) hlen) hm
    rw [topN, List.take_of_length_le hl]
  have hperm2 : (topN f m (topN f n rows)).Perm (topN f n rows) := by
    rw [hall]
    exact sortDesc_perm f _
  refine ⟨hperm2, desc_map_eq_of_perm f _ _ hperm2 ?_ hpair⟩
  rw [hall]
  exact sortDesc_pairwise f _

/-- Claim C3 witness: topN with bound 2 on a concrete three-row table, then
reapplied with the larger bound 3, returns the same rows with the same
sorted field-value sequence. -/
theorem spec_C3_topN_witness :
    (2 : Nat) ≤ 3
    ∧ (topN Prod.snd 3 (topN Prod.snd 2 exPairs)).Perm (topN Prod.snd 2 exPairs)
    ∧ (topN Prod.snd 3 (topN Prod.snd 2 exPairs)).map Prod.snd
        = (topN Prod.snd 2 exPairs).map Prod.snd :=
  ⟨by decide, (spec_C3_topN Prod.snd 2 exPairs).2.2.2.2 3 (by decide)⟩

/-- Claim C3 counterexample: pandas realises a descending sort as the
reversal of an ascending argsort, and its default quicksort gives no tie
guarantee at all, so ties do not keep their original order and reapplying
topN can permute them.  Concretely: the tied rows ("b", 9) and ("c", 9) of
exPairs, originally b before c, come out of topN as c before b — not the
original order — and on the all-tied table exTies a second application of
topN with the same bound flips the two rows, refuting idempotence as
sequence equality. -/
theorem spec_C3_counterexample :
    (exPairs = [(("a" : String), (5 : ℚ)), ("b", 9), ("c", 9)]
      ∧ topN Prod.snd 3 exPairs = [(("c" : String), (9 : ℚ)), ("b", 9), ("a", 5)])
    ∧ topN Prod.snd 2 (topN Prod.snd 2 exTies) ≠ topN Prod.snd 2 exTies := by
  have hs1 : List.Pairwise (fun a b : String × ℚ => (decide (a.2 ≤ b.2)) = true) exPairs := by
    decide
  have h1 : topN Prod.snd 3 exPairs = [(("c" : String), (9 : ℚ)), ("b", 9), ("a", 5)] := by
    rw [topN, sortDesc, List.mergeSort_of_sorted hs1]
    rfl
  have hs2 : List.Pairwise (fun a b : String × ℚ => (decide (a.2 ≤ b.2)) = true) exTies := by
    decide
  have h2 : topN Prod.snd 2 exTies = [(("c" : String), (9 : ℚ)), ("b", 9)] := by
    rw [topN, sortDesc, List.mergeSort_of_sorted hs2]
    rfl
  have hs3 : List.Pairwise (fun a b : String × ℚ => (decide (a.2 ≤ b.2)) = true)
      [(("c" : String), (9 : ℚ)), ("b", 9)] := by
    decide
  have h3 : topN Prod.snd 2 [(("c" : String), (9 : ℚ)), ("b", 9)]
      = [(("b" : String), (9 : ℚ)), ("c", 9)] := by
    rw [topN, sortDesc, List.mergeSort_of_sorted hs3]
    rfl
  refine ⟨⟨rfl, h1⟩, ?_⟩
  rw [h2, h3]
  decide

/-- Claim C4: the monthly aggregation returns its month buckets in strictly
increasing chronological order with no duplicate month keys, for every
dataset and every date parser. -/
theorem spec_C4_monthly_sorted (parse : String → Except String Date) (d : List Record) :
    List.Sorted (· < ·) ((monthlyAggregate parse d).map Prod.fst)
    ∧ ((monthlyAggregate parse d).map Prod.fst).Nodup := by
  rw [monthlyAggregate, groupReduce_map_fst]
  exact ⟨groupKeys_sorted_lt _ _, groupKeys_nodup _ _⟩

/-- Claim C5 (amended): the shipping tab and its filter never change the
session dataframe, filtering produces a subsequence (view) of the rows, and
the sales tab leaves the loaded rows and their values untouched — its only
state effect is assigning the derived order_date column onto the session
dataframe. -/
theorem spec_C5_rows_immutable (df : DataFrame) (mode : Option String)
    (parse : String → Except String Date) (get : Record → Option String)
    (v : Option String) :
    (shippingTab df mode).1 = df
    ∧ (filterByValue get v df.rows).Sublist df.rows
    ∧ ((salesTab parse df).1).rows = df.rows
    ∧ ((salesTab parse df).1).orderDateCol
        = some (df.rows.map (fun r => toDatetimeCoerce parse r.orderDateRaw)) :=
  ⟨rfl, List.filter_sublist _, rfl, rfl⟩

/-- Claim C5 counterexample: running the Sales & Profit tab on the freshly
loaded dataframe changes it — line 65 assigns the order_date column onto
the module-level dataframe, so the dataset is not immutable after load. -/
theorem spec_C5_counterexample :
    (salesTab exParseFail (loadDataFrame [baseRecord])).1
      ≠ loadDataFrame [baseRecord] := by
  decide

/-- Claim C7: for every date parser and every dataset, applying the
error-coercing date conversion keeps every row; a row's order_date is null
exactly when its raw date string fails to parse; and the rows appearing
across the monthly buckets are exactly the rows whose date parses. -/
theorem spec_C7_unparsable_dates (parse : String → Except String Date) (d : List Record) :
    (withOrderDate parse d).map Prod.fst = d
    ∧ (∀ p ∈ withOrderDate parse d,
        p.2 = none ↔ ∃ e, parse p.1.orderDateRaw = Except.error e)
    ∧ ((((monthlyGroups parse d).map Prod.snd).flatten).map Prod.fst).Perm
        (d.filter (fun r => ((parse r.orderDateRaw).toOption).isSome)) := by
  refine ⟨?_, ?_, ?_⟩
  · simp [withOrderDate, List.map_map, Function.comp_def]
  · intro p hp
    obtain ⟨r, _, rfl⟩ := List.mem_map.mp hp
    cases hparse : parse r.orderDateRaw with
    | error e => simp [toDatetimeCoerce, hparse, Except.toOption]
    | ok dte => simp [toDatetimeCoerce, hparse, Except.toOption]
  · have hperm := (groupBy_partition_perm
      (fun p : Record × Option Date => p.2.map Date.toPeriodM)
      (withOrderDate parse d)).map Prod.fst
    rw [monthlyGroups]
    refine hperm.trans (List.Perm.of_eq ?_)
    rw [withOrderDate, List.filter_map, List.map_map]
    have hcomp : (Prod.fst ∘ fun r : Record => (r, toDatetimeCoerce parse r.orderDateRaw))
        = id := rfl
    rw [hcomp, List.map_id]
    refine List.filter_congr (fun r _ => ?_)
    cases hparse : parse r.orderDateRaw <;>
      simp [toDatetimeCoerce, hparse, Except.toOption]

/-- Claim C7 witness: under the always-failing parser, the single row of a
concrete dataset is retained with a null order_date, and the null is
equivalent to the parse having failed. -/
theorem spec_C7_unparsable_dates_witness :
    ((baseRecord, (none : Option Date)) ∈ withOrderDate exParseFail [baseRecord])
    ∧ (((baseRecord, (none : Option Date)).2 = none)
        ↔ ∃ e, exParseFail (baseRecord, (none : Option Date)).1.orderDateRaw
            = Except.error e) :=
  ⟨by decide,
    (spec_C7_unparsable_dates exParseFail [baseRecord]).2.1 _ (by decide)⟩

/-- Claim C8 (amended): when zero rows match the selected value the filter
yields an empty dataset — silently, no warning is signalled (see the
counterexample) — and the metric snapshot of that empty dataset is zero
counts, zero total sales and an absent mean, computed without failure. -/
theorem spec_C8_empty_result (d : List Record) (get : Record → Option String)
    (v : Option String) (h : ∀ r ∈ d, pdEq (get r) v = false) :
    filterByValue get v d = []
    ∧ computeSnapshot (filterByValue get v d) = ⟨0, 0, 0, none⟩ := by
  have hnil : filterByValue get v d = [] :=
    List.filter_eq_nil_iff.mpr (fun r hr => by simp [h r hr])
  exact ⟨hnil, by rw [hnil]; rfl⟩

/-- Claim C8 witness: a concrete one-row dataset whose shipping mode does
not match the selected value yields the empty dataset and the all-zero
snapshot. -/
theorem spec_C8_empty_result_witness :
    filterByValue Record.shippingMode (some "Same Day") [exRecordA] = []
    ∧ computeSnapshot (filterByValue Record.shippingMode (some "Same Day") [exRecordA])
        = ⟨0, 0, 0, none⟩ :=
  spec_C8_empty_result [exRecordA] Record.shippingMode (some "Same Day") (by decide)

/-- Claim C8 counterexample: on a dataset where zero rows match the selected
shipping mode, the Shipping & Delivery tab produces the empty filtered
dataset yet its list of emitted warnings is empty — no EmptyResultWarning is
signalled anywhere in the source. -/
theorem spec_C8_counterexample :
    (shippingTab (loadDataFrame [exRecordA]) (some "Same Day")).2.1 = []
    ∧ (shippingTab (loadDataFrame [exRecordA]) (some "Same Day")).2.2 = [] := by
  decide

/-- Claim C9 (amended): whenever the selected filter option is a non-null
value drawn from the column's distinct values — the options the selectbox
offers — the filtered dataset is non-empty; an empty result is reachable
only by selecting a null option. -/
theorem spec_C9_selectbox_nonempty (rows : List Record) (v : Option String)
    (hv : v ∈ uniqueShippingModes rows) (hs : v.isSome = true) :
    filterByValue Record.shippingMode v rows ≠ [] := by
  obtain ⟨s, rfl⟩ := Option.isSome_iff_exists.mp hs
  have hmm : some s ∈ rows.map Record.shippingMode := List.mem_dedup.mp hv
  obtain ⟨r, hr, hsr⟩ := List.mem_map.mp hmm
  refine List.ne_nil_of_mem (List.mem_filter.mpr ⟨hr, ?_⟩)
  rw [hsr]
  simp [pdEq]

/-- Claim C9 witness: a concrete non-null shipping mode present in the
dataset yields a non-empty filter result. -/
theorem spec_C9_selectbox_nonempty_witness :
    filterByValue Record.shippingMode (some "Standard Class") [exRecordA] ≠ [] :=
  spec_C9_selectbox_nonempty [exRecordA] (some "Standard Class")
    (by decide) (by decide)

/-- Claim C9 counterexample: a non-empty dataset whose only shipping-mode
value is null offers exactly that null value in the selectbox, and selecting
it matches zero rows — the empty-result case is reachable through this
interface. -/
theorem spec_C9_counterexample :
    ([baseRecord] : List Record) ≠ []
    ∧ (none ∈ uniqueShippingModes [baseRecord])
    ∧ filterByValue Record.shippingMode none [baseRecord] = [] := by
  refine ⟨by simp, by decide, by decide⟩

/-- Claim C10: in a groupReduce with a sum reduction, a group whose measure
values are all null appears in the aggregation result with sum 0 — the
null values are skipped and the empty sum is 0 — rather than being
excluded. -/
theorem spec_C10_allNull_sum_zero [LinearOrder κ] (key : α → Option κ)
    (meas : α → Option ℚ) (rows : List α) (k : κ)
    (hk : ∃ r ∈ rows, key r = some k)
    (hnull : ∀ r ∈ rows, key r = some k → meas r = none) :
    (k, (0 : ℚ)) ∈ groupReduce key (fun g => optSum (g.map meas)) rows := by
  have hkmem : k ∈ groupKeys key rows := (mem_groupKeys key rows k).mpr hk
  have hred : optSum ((rows.filter (fun r => decide (key r = some k))).map meas) = 0 := by
    refine optSum_eq_zero_of_all_none _ (fun x hx => ?_)
    obtain ⟨r, hrf, rfl⟩ := List.mem_map.mp hx
    have hrmem := List.mem_filter.mp hrf
    exact hnull r hrmem.1 (of_decide_eq_true hrmem.2)
  rw [groupReduce, groupBy, List.map_map]
  refine List.mem_map.mpr ⟨k, hkmem, ?_⟩
  simp [Function.comp_def, hred]

/-- Claim C10 witness: a concrete one-row dataset whose product key is
present but whose sales value is null produces the group ("P", 0). -/
theorem spec_C10_allNull_sum_zero_witness :
    (("P", (0 : ℚ)) ∈ groupReduce Record.productName
      (fun g => optSum (g.map Record.sales)) [exRecNullSales]) :=
  spec_C10_allNull_sum_zero Record.productName Record.sales [exRecNullSales] "P"
    ⟨exRecNullSales, by decide, by decide⟩ (by decide)
